/-
  Verification of the batch-conversion core of a JPEG XL converter GUI
  (`src/engine.rs`, `src/types.rs`), as a shallow embedding in Lean 4.

  Paths are modelled as lists of components (an absolute path `/a/b/x.png`
  is `["a", "b", "x.png"]`; the root `/` is `[]`).  The filesystem visible
  to the engine is a record of file paths and directory paths.  External
  effects (running `cjxl`/`djxl`, `fs::canonicalize`) are oracles passed
  as parameters.
-/
import Mathlib

namespace JxlConverter

/-- A filesystem path as its list of components (absolute; `[]` is the root). -/
abbrev FsPath := List String

/-- ASCII lowercasing of one character (models `str::to_lowercase` on the
ASCII extension strings the engine compares). -/
def lower_char (c : Char) : Char :=
  if 'A' ≤ c ∧ c ≤ 'Z' then Char.ofNat (c.toNat + 32) else c

/-- ASCII lowercasing of a string. -/
def to_lowercase (s : String) : String :=
  String.mk (s.data.map lower_char)

/-- The characters after the last `.` of a file name, if the name contains
a `.` (helper for `Path::extension`). -/
def ext_after_last_dot : List Char → Option (List Char)
  | [] => none
  | c :: rest =>
    match ext_after_last_dot rest with
    | some e => some e
    | none => if c = '.' then some rest else none

/-- Models `Path::extension` on a file name: the portion after the last `.`;
`none` when there is no `.`, or when the only `.` is a leading one
(hidden files such as `.gitignore` have no extension). -/
def name_extension (name : String) : Option String :=
  match name.data with
  | [] => none
  | c0 :: rest =>
    if c0 = '.' then (ext_after_last_dot rest).map String.mk
    else (ext_after_last_dot (c0 :: rest)).map String.mk

/-- Models `Path::file_name` (total: `""` for the root, where the Rust code would
have `unwrap`ped a `None`). -/
def file_name (p : FsPath) : String := p.getLast?.getD ""

/-- Models `Path::extension`: the extension of the path's file name. -/
def path_extension (p : FsPath) : Option String :=
  match p.getLast? with
  | none => none
  | some n => name_extension n

/-- Models `Path::parent`: `none` for the root, otherwise the path minus its last
component. -/
def parent_path (p : FsPath) : Option FsPath :=
  match p with
  | [] => none
  | _ :: _ => some p.dropLast

/-- Replace the extension of a file name (`Path::set_extension` on the
file-name part): drop the old extension if any, then append `.ext`. -/
def set_extension_name (name ext : String) : String :=
  match name_extension name with
  | none => name ++ "." ++ ext
  | some e => name.dropRight (e.length + 1) ++ "." ++ ext

/-- Models `Path::with_extension`: replace the extension of the path's last
component; a path with no file name (the root) is unchanged. -/
def path_with_extension (p : FsPath) (ext : String) : FsPath :=
  match p with
  | [] => []
  | _ :: _ => p.dropLast ++ [set_extension_name (p.getLast?.getD "") ext]

/-- Models `Path::strip_prefix`: the remainder of `p` after removing prefix
`base`, when `base` is a componentwise prefix of `p`. -/
def path_strip (base p : FsPath) : Option FsPath :=
  if base.isPrefixOf p then some (p.drop base.length) else none

/-- Models `Path::starts_with`. -/
def path_starts_with (p base : FsPath) : Bool := base.isPrefixOf p

/-- Models `Path::display`, for progress-event strings. -/
def path_display (p : FsPath) : String :=
  p.foldl (fun acc c => acc ++ "/" ++ c) ""

/-- The filesystem as the engine observes it: which paths are plain files
and which are directories. -/
structure FS where
  files : List FsPath
  dirs : List FsPath

/-- Models `Path::is_file`. -/
def FS.isFile (fs : FS) (p : FsPath) : Bool := fs.files.contains p

/-- Models `Path::is_dir`. -/
def FS.isDir (fs : FS) (p : FsPath) : Bool := fs.dirs.contains p

/-- Models `Path::exists`. -/
def FS.pathExists (fs : FS) (p : FsPath) : Bool :=
  fs.files.contains p || fs.dirs.contains p

/-- Models `fs::read_dir` restricted to plain-file entries: the immediate file
children of directory `p` (engine.rs lines 199-205). -/
def FS.readDirFiles (fs : FS) (p : FsPath) : List FsPath :=
  fs.files.filter (fun f => f.length = p.length + 1 && p.isPrefixOf f)

/-- Models `WalkDir` restricted to plain-file entries: every file under `p`
(engine.rs lines 189-197). -/
def FS.walkFiles (fs : FS) (p : FsPath) : List FsPath :=
  fs.files.filter (fun f => p.isPrefixOf f)

/-- Models `ConversionEngine::expand_paths`: files pass through unchanged;
directories contribute their immediate file children, or all files below
them when `recursive` is set; anything else contributes nothing. -/
def expand_paths (fs : FS) (paths : List FsPath) (recursive : Bool) : List FsPath :=
  paths.flatMap (fun p =>
    if fs.isFile p then [p]
    else if fs.isDir p then
      if recursive then fs.walkFiles p else fs.readDirFiles p
    else [])

/-- Models `ConversionEngine::is_supported_image`: the extension, lowercased,
is one of the recognized raster-image extensions. -/
def is_supported_image (p : FsPath) : Bool :=
  match path_extension p with
  | some ext =>
    let e := to_lowercase ext
    decide (e = "jpg" ∨ e = "jpeg" ∨ e = "png" ∨ e = "gif" ∨ e = "bmp" ∨
      e = "tiff" ∨ e = "tif" ∨ e = "webp" ∨ e = "ppm" ∨ e = "pgm" ∨ e = "pnm")
  | none => false

/-- The `while !check.starts_with(&base) { base = base.parent()?; }` loop
of `find_common_base`, with `base` passed reversed so that taking the
parent is structural (`base.parent()` drops the last component, i.e. the
head of the reversed list).  Yields `none` when an ancestor lookup fails
(parent of the root). -/
def climb_rev (check : FsPath) : FsPath → Option FsPath
  | [] => if (List.nil (α := String)).isPrefixOf check then some [] else none
  | c :: t =>
    if ((c :: t).reverse).isPrefixOf check then some (c :: t).reverse
    else climb_rev check t

/-- One step of `find_common_base`'s loop body (engine.rs lines 238-248):
take the path's parent when it is a file, the path itself otherwise, and
climb `base` upward until it is a prefix of that. -/
def fcb_loop (fs : FS) : List FsPath → FsPath → Option FsPath
  | [], base => some base
  | p :: rest, base =>
    match (if fs.isFile p then parent_path p else some p) with
    | none => none
    | some check =>
      match climb_rev check base.reverse with
      | none => none
      | some base2 => fcb_loop fs rest base2

/-- Models `ConversionEngine::find_common_base`: the deepest directory that is an
ancestor of every selected path (a file contributes its parent directory,
a directory contributes itself); `none` for an empty selection or when an
ancestor lookup fails. -/
def find_common_base (fs : FS) (paths : List FsPath) : Option FsPath :=
  match paths with
  | [] => none
  | p :: rest =>
    match (if fs.isFile p then parent_path p else some p) with
    | none => none
    | some base0 => fcb_loop fs rest base0

/-- From `types.rs`: decode output formats. -/
inductive OutputFormat where
  | Png
  | Jpeg
  | Ppm
  | Pgm
  | Pbm
deriving DecidableEq, Repr

/-- Models `OutputFormat::extension`. -/
def OutputFormat.extension : OutputFormat → String
  | .Png => "png"
  | .Jpeg => "jpg"
  | .Ppm => "ppm"
  | .Pgm => "pgm"
  | .Pbm => "pbm"

/-- From `types.rs`: encode settings (quality and effort are `u8` in the
source and only ever stringified, so `Nat` here). -/
structure ConversionSettings where
  output_dir : FsPath
  lossless : Bool
  jpeg_lossless : Bool
  quality : Nat
  effort : Nat
  recursive : Bool
  keep_structure : Bool

/-- From `types.rs`: decode settings. -/
structure DecodeSettings where
  output_dir : FsPath
  output_format : OutputFormat
  recursive : Bool
  keep_structure : Bool

/-- From `types.rs`: one decode work item. -/
structure DecodeItem where
  path : FsPath
  output_format : OutputFormat

/-- From `types.rs`: progress events sent from the worker to the caller. -/
inductive ProgressMessage where
  | Started (total : Nat)
  | Progress (current : Nat) (total : Nat) (file : String)
  | Success (file : String)
  | Error (file : String) (error : String)
  | Skipped (file : String) (reason : String)
  | Completed
  | Cancelled
deriving DecidableEq, Repr

/-- From `engine.rs`: the engine holds the located tool paths (the discovery
heuristics themselves are out of scope; only presence/absence matters). -/
structure ConversionEngine where
  cjxl_path : Option String
  djxl_path : Option String

/-- The output-path computation of `convert_single` (engine.rs lines
261-276): mirror the input's path relative to the common base under the
output directory when structure preservation is on and the base strips
off, otherwise flatten to the bare file name; then force the `jxl`
extension. -/
def resolve_output_path (settings : ConversionSettings) (base_path : Option FsPath)
    (input_file : FsPath) : FsPath :=
  let output_path :=
    if settings.keep_structure then
      match base_path with
      | some base =>
        match path_strip base input_file with
        | some rel => settings.output_dir ++ rel
        | none => settings.output_dir ++ [file_name input_file]
      | none => settings.output_dir ++ [file_name input_file]
    else
      settings.output_dir ++ [file_name input_file]
  path_with_extension output_path "jxl"

/-- The output-path computation of `decode_single` (engine.rs lines
422-437): same shape, with the per-item output format's extension. -/
def resolve_decode_output_path (settings : DecodeSettings) (output_format : OutputFormat)
    (base_path : Option FsPath) (input_file : FsPath) : FsPath :=
  let output_path :=
    if settings.keep_structure then
      match base_path with
      | some base =>
        match path_strip base input_file with
        | some rel => settings.output_dir ++ rel
        | none => settings.output_dir ++ [file_name input_file]
      | none => settings.output_dir ++ [file_name input_file]
    else
      settings.output_dir ++ [file_name input_file]
  path_with_extension output_path (output_format.extension)

/-- The lowercased input extension used by the quality/lossless selection
(engine.rs lines 310-312), `""` when there is no extension. -/
def input_ext_lower (input_file : FsPath) : String :=
  ((path_extension input_file).map to_lowercase).getD ""

/-- The `is_jpeg` test of engine.rs line 313. -/
def input_is_jpeg (input_file : FsPath) : Bool :=
  input_ext_lower input_file = "jpg" || input_ext_lower input_file = "jpeg"

/-- The quality/lossless flags of `convert_single` (engine.rs lines
315-326). -/
def quality_args (settings : ConversionSettings) (input_file : FsPath) : List String :=
  if settings.lossless then
    if input_is_jpeg input_file then ["--lossless_jpeg=1"] else ["-d", "0"]
  else if input_is_jpeg input_file && settings.jpeg_lossless then
    ["--lossless_jpeg=1"]
  else
    ["-q", toString settings.quality]

/-- The full `cjxl` argument list built by `convert_single` (engine.rs
lines 306-329), given the resolved absolute input and output paths. -/
def cjxl_args (settings : ConversionSettings) (input_file : FsPath)
    (abs_input abs_output : String) : List String :=
  [abs_input, abs_output] ++ quality_args settings input_file ++
    ["-e", toString settings.effort]

/-- Captured output of one external process run. -/
structure ProcessOutput where
  success : Bool
  stderr : String

/-- Oracles for the IO a single conversion performs: `fs::canonicalize`
(absolute-path resolution, which can fail with an OS error message) and
`Command::output` (running the tool, which can fail to launch or return a
captured exit status and standard error). -/
structure ProcEnv where
  canonicalize : FsPath → Except String String
  run : String → List String → Except String ProcessOutput

/-- All ancestors of a directory path, the path itself included (what
`fs::create_dir_all` brings into existence). -/
def path_prefixes (p : FsPath) : List FsPath :=
  (List.range (p.length + 1)).map (fun n => p.take n)

/-- Models `fs::create_dir_all`: record the directory and every ancestor of it
as existing (modelled as always succeeding). -/
def mkdir_all (fs : FS) (d : FsPath) : FS :=
  { fs with dirs := fs.dirs ++ (path_prefixes d).filter (fun q => !fs.dirs.contains q) }

/-- Models `ConversionEngine::convert_single` (engine.rs lines 253-341): resolve
the destination, create its parent directories, canonicalize the input
and output, run `cjxl`, and classify the result.  Returns the per-item
result together with the filesystem as left behind. -/
def convert_single (fs : FS) (env : ProcEnv) (cjxl_path : String)
    (settings : ConversionSettings) (base_path : Option FsPath)
    (input_file : FsPath) : Except String String × FS :=
  let output_path := resolve_output_path settings base_path input_file
  -- Create parent directory if needed (lines 279-282)
  let fs1 :=
    match parent_path output_path with
    | some parent => mkdir_all fs parent
    | none => fs
  -- Use absolute paths (lines 288-304)
  match env.canonicalize input_file with
  | .error e => (.error ("Failed to resolve input path: " ++ e), fs1)
  | .ok abs_input =>
    let resolved :=
      if fs1.pathExists output_path then
        match env.canonicalize output_path with
        | .error e => (Except.error ("Failed to resolve output path: " ++ e), fs1)
        | .ok abs => (Except.ok abs, fs1)
      else
        match parent_path output_path with
        | some parent =>
          let fs2 := mkdir_all fs1 parent
          match env.canonicalize parent with
          | .error e => (Except.error ("Failed to resolve output directory: " ++ e), fs2)
          | .ok abs_parent => (Except.ok (abs_parent ++ "/" ++ file_name output_path), fs2)
        | none => (Except.ok (path_display output_path), fs1)
    match resolved with
    | (.error e, fs2) => (.error e, fs2)
    | (.ok abs_output, fs2) =>
      -- Build and execute the cjxl command (lines 285-340)
      match env.run cjxl_path (cjxl_args settings input_file abs_input abs_output) with
      | .error e => (.error ("Failed to execute cjxl: " ++ e), fs2)
      | .ok out =>
        if out.success then (.ok abs_output, fs2)
        else (.error ("cjxl failed: " ++ out.stderr), fs2)

/-- Models `ConversionEngine::decode_single` (engine.rs lines 413-480): same
shape as `convert_single` with no quality flags and the per-item output
format's extension. -/
def decode_single (fs : FS) (env : ProcEnv) (djxl_path : String)
    (output_format : OutputFormat) (settings : DecodeSettings)
    (base_path : Option FsPath) (input_file : FsPath) :
    Except String String × FS :=
  let output_path := resolve_decode_output_path settings output_format base_path input_file
  let fs1 :=
    match parent_path output_path with
    | some parent => mkdir_all fs parent
    | none => fs
  match env.canonicalize input_file with
  | .error e => (.error ("Failed to resolve input path: " ++ e), fs1)
  | .ok abs_input =>
    let resolved :=
      if fs1.pathExists output_path then
        match env.canonicalize output_path with
        | .error e => (Except.error ("Failed to resolve output path: " ++ e), fs1)
        | .ok abs => (Except.ok abs, fs1)
      else
        match parent_path output_path with
        | some parent =>
          let fs2 := mkdir_all fs1 parent
          match env.canonicalize parent with
          | .error e => (Except.error ("Failed to resolve output directory: " ++ e), fs2)
          | .ok abs_parent => (Except.ok (abs_parent ++ "/" ++ file_name output_path), fs2)
        | none => (Except.ok (path_display output_path), fs1)
    match resolved with
    | (.error e, fs2) => (.error e, fs2)
    | (.ok abs_output, fs2) =>
      match env.run djxl_path [abs_input, abs_output] with
      | .error e => (.error ("Failed to execute djxl: " ++ e), fs2)
      | .ok out =>
        if out.success then (.ok abs_output, fs2)
        else (.error ("djxl failed: " ++ out.stderr), fs2)

/-- The per-item loop of `convert_batch` (engine.rs lines 146-179).
`cancel idx` is the value of the shared cancellation flag observed at the
check preceding the 0-based item `idx`; `runItem idx f` abstracts the
outcome of `convert_single` on that item (`ok` carries the displayed
output path).  Falls through to `Completed` when the list is exhausted. -/
def convert_loop (total : Nat) (cancel : Nat → Bool)
    (runItem : Nat → FsPath → Except String String) :
    Nat → List FsPath → List ProgressMessage
  | _, [] => [.Completed]
  | idx, f :: rest =>
    if cancel idx then [.Cancelled]
    else
      .Progress (idx + 1) total (path_display f) ::
      (match runItem idx f with
       | .ok output => .Success (path_display f ++ " -> " ++ output)
       | .error e => .Error (path_display f) e) ::
      convert_loop total cancel runItem (idx + 1) rest

/-- Models `ConversionEngine::convert_batch` (engine.rs lines 104-179) as the
list of progress events it sends.  When `cjxl` was not located, a single
`Error` (empty file field) and nothing else; otherwise expand, filter,
announce `Started{total}`, finish immediately on an empty work list, and
otherwise run the loop (the common base computed at lines 140-144 feeds
only `convert_single`, abstracted here by `runItem`). -/
def convert_batch (eng : ConversionEngine) (fs : FS) (input_paths : List FsPath)
    (settings : ConversionSettings) (cancel : Nat → Bool)
    (runItem : Nat → FsPath → Except String String) : List ProgressMessage :=
  match eng.cjxl_path with
  | none => [.Error "" "cjxl not found"]
  | some _ =>
    let files := expand_paths fs input_paths settings.recursive
    let image_files := files.filter is_supported_image
    let total := image_files.length
    if total = 0 then
      [.Started total, .Completed]
    else
      .Started total :: convert_loop total cancel runItem 0 image_files

/-- The per-item loop of `decode_batch` (engine.rs lines 377-411). -/
def decode_loop (total : Nat) (cancel : Nat → Bool)
    (runItem : Nat → DecodeItem → Except String String) :
    Nat → List DecodeItem → List ProgressMessage
  | _, [] => [.Completed]
  | idx, item :: rest =>
    if cancel idx then [.Cancelled]
    else
      .Progress (idx + 1) total (path_display item.path) ::
      (match runItem idx item with
       | .ok output => .Success (path_display item.path ++ " -> " ++ output)
       | .error e => .Error (path_display item.path) e) ::
      decode_loop total cancel runItem (idx + 1) rest

/-- Models `ConversionEngine::decode_batch` (engine.rs lines 343-411) as the
list of progress events it sends: the items arrive pre-gathered (no
expansion or filtering), the rest mirrors `convert_batch`. -/
def decode_batch (eng : ConversionEngine) (decode_items : List DecodeItem)
    (settings : DecodeSettings) (cancel : Nat → Bool)
    (runItem : Nat → DecodeItem → Except String String) : List ProgressMessage :=
  match eng.djxl_path with
  | none => [.Error "" "djxl not found"]
  | some _ =>
    let total := decode_items.length
    if total = 0 then
      [.Started total, .Completed]
    else
      .Started total :: decode_loop total cancel runItem 0 decode_items

/-- Event classifiers used by the stated properties. -/
def is_terminal : ProgressMessage → Bool
  | .Completed => true
  | .Cancelled => true
  | _ => false

def is_started : ProgressMessage → Bool
  | .Started _ => true
  | _ => false

def is_progress : ProgressMessage → Bool
  | .Progress _ _ _ => true
  | _ => false

/-- Tests for `Success` or `Error`: the outcome event of one processed item. -/
def is_outcome : ProgressMessage → Bool
  | .Success _ => true
  | .Error _ _ => true
  | _ => false

def progress_current : ProgressMessage → Option Nat
  | .Progress c _ _ => some c
  | _ => none

def progress_file : ProgressMessage → Option String
  | .Progress _ _ f => some f
  | _ => none

/-- A run's event sequence ends with a terminal event and contains
exactly one terminal event. -/
def ends_with_one_terminal (es : List ProgressMessage) : Prop :=
  ∃ pre e, es = pre ++ [e] ∧ is_terminal e = true ∧ es.countP is_terminal = 1

/-! Concrete fixtures used by witnesses and by the spec's worked examples. -/

/-- The `Default for ConversionSettings` values (types.rs lines 69-81). -/
def default_conversion_settings : ConversionSettings :=
  ⟨[], false, true, 90, 7, true, false⟩

/-- A directory `/d` holding `im.png`, `note.txt` and `shot.JPEG`
(the spec's extension-filter scenario). -/
def sample_dir_fs : FS :=
  ⟨[["d", "im.png"], ["d", "note.txt"], ["d", "shot.JPEG"]], [["d"]]⟩

/-- The files `/a/b/x.png` and `/a/c/y.png` (the spec's
structure-preservation scenario). -/
def structure_fs : FS :=
  ⟨[["a", "b", "x.png"], ["a", "c", "y.png"]], [["a"], ["a", "b"], ["a", "c"], ["out"]]⟩

/-- Keep-structure encode settings with output directory `/out`. -/
def keep_structure_settings : ConversionSettings :=
  ⟨["out"], false, true, 90, 7, true, true⟩

/-! The quality/lossless argument policy as the spec words it (for the
refinement statement of the encode argument policy). -/

/-- Modelled from the spec: "the input extension is jpg/jpeg, compared
case-insensitively" (spec §4.5 / claim C3's JPEG-family test). -/
def spec_input_is_jpeg (input_file : FsPath) : Bool :=
  match path_extension input_file with
  | some e => to_lowercase e = "jpg" || to_lowercase e = "jpeg"
  | none => false

/-- Modelled from the spec: the encode argument policy, in the spec's
order — positional absolute input, positional absolute output, exactly
one quality selection (job-level lossless with JPEG input ⇒ the JPEG
lossless flag; job-level lossless otherwise ⇒ distance zero; JPEG input
with the JPEG-specific flag ⇒ the JPEG lossless flag; otherwise the
numeric quality), then always the effort flag. -/
def spec_encode_args (settings : ConversionSettings) (input_file : FsPath)
    (abs_input abs_output : String) : List String :=
  abs_input :: abs_output ::
    ((if settings.lossless then
        (if spec_input_is_jpeg input_file then ["--lossless_jpeg=1"] else ["-d", "0"])
      else if spec_input_is_jpeg input_file && settings.jpeg_lossless then
        ["--lossless_jpeg=1"]
      else
        ["-q", toString settings.quality]) ++ ["-e", toString settings.effort])

/-- The engine's JPEG test agrees with the spec's phrasing of it. -/
lemma input_is_jpeg_eq_spec (p : FsPath) : input_is_jpeg p = spec_input_is_jpeg p := by
  unfold input_is_jpeg spec_input_is_jpeg input_ext_lower
  cases h : path_extension p <;> simp [h]

/-- C3: for every encode work item the command line is, in order,
positional absolute input, positional absolute output, exactly one
quality selection — `--lossless_jpeg=1` for lossless+JPEG, `-d 0` for
lossless+non-JPEG, `--lossless_jpeg=1` for JPEG with the JPEG-specific
flag, else `-q <quality>` — then always `-e <effort>`; in particular
job-level lossless with JPEG input and `jpeg_lossless = false` still
yields `--lossless_jpeg=1`. -/
theorem cjxl_argument_policy :
    (∀ (settings : ConversionSettings) (input_file : FsPath) (a b : String),
      cjxl_args settings input_file a b = spec_encode_args settings input_file a b) ∧
    (∀ (od : FsPath) (q e : Nat) (r ks : Bool) (a b : String),
      cjxl_args ⟨od, true, false, q, e, r, ks⟩ ["photo.jpg"] a b =
        [a, b, "--lossless_jpeg=1", "-e", toString e]) ∧
    (∀ (od : FsPath) (q e : Nat) (r ks : Bool) (a b : String),
      cjxl_args ⟨od, true, false, q, e, r, ks⟩ ["photo.png"] a b =
        [a, b, "-d", "0", "-e", toString e]) := by
  refine ⟨fun settings input_file a b => ?_, fun od q e r ks a b => rfl,
    fun od q e r ks a b => rfl⟩
  unfold cjxl_args spec_encode_args quality_args
  rw [input_is_jpeg_eq_spec]
  cases hl : settings.lossless <;> cases hj : spec_input_is_jpeg input_file <;> simp

/-- C7: the encode format filter keeps a file iff its extension,
lowercased, is one of the eleven supported raster extensions; and on the
spec's sample directory, non-recursive expansion plus filtering retains
exactly `im.png` and `shot.JPEG`. -/
theorem encode_filter_extension_policy :
    (∀ p : FsPath, is_supported_image p = true ↔
      ∃ e, path_extension p = some e ∧
        to_lowercase e ∈ (["jpg", "jpeg", "png", "gif", "bmp", "tiff", "tif",
          "webp", "ppm", "pgm", "pnm"] : List String)) ∧
    (expand_paths sample_dir_fs [["d"]] false).filter is_supported_image =
      [["d", "im.png"], ["d", "shot.JPEG"]] := by
  constructor
  · intro p
    unfold is_supported_image
    cases h : path_extension p
    · simp
    · simp [decide_eq_true_iff, or_assoc]
  · decide

/-- C9: a path with no extension at all is rejected by the encode format
filter, so extensionless files never enter the encode work list. -/
theorem extensionless_rejected (p : FsPath) (h : path_extension p = none) :
    is_supported_image p = false := by
  unfold is_supported_image
  rw [h]

/-- Witness for C9 at `/d/README`. -/
theorem extensionless_rejected_witness :
    path_extension ["d", "README"] = none ∧
      is_supported_image ["d", "README"] = false :=
  ⟨by decide, extensionless_rejected ["d", "README"] (by decide)⟩

/-- C5: with the encoder located, a batch whose expanded-and-filtered
work list is empty emits exactly `Started{total=0}` then `Completed` —
no `Progress`/`Success`/`Error`, and no error condition. -/
theorem empty_work_list_completes (cj : String) (dj : Option String) (fs : FS)
    (input_paths : List FsPath) (settings : ConversionSettings)
    (cancel : Nat → Bool) (runItem : Nat → FsPath → Except String String)
    (h : (expand_paths fs input_paths settings.recursive).filter is_supported_image = []) :
    convert_batch ⟨some cj, dj⟩ fs input_paths settings cancel runItem =
      [.Started 0, .Completed] := by
  unfold convert_batch
  simp [h]

/-- Witness for C5: selecting only `/d/note.txt` filters to nothing. -/
theorem empty_work_list_completes_witness :
    (expand_paths sample_dir_fs [["d", "note.txt"]]
        default_conversion_settings.recursive).filter is_supported_image = [] ∧
      convert_batch ⟨some "cjxl", none⟩ sample_dir_fs [["d", "note.txt"]]
        default_conversion_settings (fun _ => false) (fun _ _ => .ok "") =
        [.Started 0, .Completed] :=
  ⟨by decide,
    empty_work_list_completes "cjxl" none sample_dir_fs [["d", "note.txt"]]
      default_conversion_settings (fun _ => false) (fun _ _ => .ok "") (by decide)⟩

/-- C6: on the spec's scenario the common base of `/a/b/x.png` and
`/a/c/y.png` is `/a` and the keep-structure destinations under `/out`
are `/out/b/x.jxl` and `/out/c/y.jxl`; and whenever stripping the common
base from an input fails, the destination degrades to the output
directory joined with the input's bare file name, extension replaced. -/
theorem structure_preservation_destinations :
    (find_common_base structure_fs [["a", "b", "x.png"], ["a", "c", "y.png"]] =
        some ["a"] ∧
      resolve_output_path keep_structure_settings (some ["a"]) ["a", "b", "x.png"] =
        ["out", "b", "x.jxl"] ∧
      resolve_output_path keep_structure_settings (some ["a"]) ["a", "c", "y.png"] =
        ["out", "c", "y.jxl"]) ∧
    (∀ (settings : ConversionSettings) (base input_file : FsPath),
      settings.keep_structure = true →
      path_strip base input_file = none →
      resolve_output_path settings (some base) input_file =
        path_with_extension (settings.output_dir ++ [file_name input_file]) "jxl") := by
  refine ⟨by decide, fun settings base input_file hks hstrip => ?_⟩
  unfold resolve_output_path
  simp [hks, hstrip]

/-- Witness for C6's fallback at input `/z/w.png`, which is not under the
base `/a`. -/
theorem structure_preservation_destinations_witness :
    keep_structure_settings.keep_structure = true ∧
      path_strip ["a"] ["z", "w.png"] = none ∧
      resolve_output_path keep_structure_settings (some ["a"]) ["z", "w.png"] =
        path_with_extension (keep_structure_settings.output_dir ++
          [file_name ["z", "w.png"]]) "jxl" :=
  ⟨by decide, by decide,
    structure_preservation_destinations.2 keep_structure_settings ["a"] ["z", "w.png"]
      (by decide) (by decide)⟩

/-- C8: when the external process runs and exits with a non-zero status,
the item's result is a failure whose message is the fixed prefix plus the
captured standard-error text — whatever that text is, the empty string
included — for encode (`cjxl`) and decode (`djxl`) alike. -/
theorem nonzero_exit_yields_error (fs : FS) (env : ProcEnv) (cj dj : String)
    (fmt : OutputFormat) (esettings : ConversionSettings) (dsettings : DecodeSettings)
    (ebase dbase : Option FsPath) (einput dinput : FsPath) (out : ProcessOutput)
    (hfail : out.success = false)
    (hcanon : ∀ p, ∃ s, env.canonicalize p = .ok s)
    (hrun : ∀ prog args, env.run prog args = .ok out) :
    (convert_single fs env cj esettings ebase einput).1 =
        .error ("cjxl failed: " ++ out.stderr) ∧
      (decode_single fs env dj fmt dsettings dbase dinput).1 =
        .error ("djxl failed: " ++ out.stderr) := by
  constructor
  · obtain ⟨s1, h1⟩ := hcanon einput
    obtain ⟨s2, h2⟩ := hcanon (resolve_output_path esettings ebase einput)
    unfold convert_single
    cases hp : parent_path (resolve_output_path esettings ebase einput) with
    | none =>
      by_cases hex : fs.pathExists (resolve_output_path esettings ebase einput) = true <;>
        simp [hp, h1, h2, hex, hrun, hfail]
    | some parent =>
      obtain ⟨s3, h3⟩ := hcanon parent
      by_cases hex : (mkdir_all fs parent).pathExists
          (resolve_output_path esettings ebase einput) = true <;>
        simp [hp, h1, h2, h3, hex, hrun, hfail]
  · obtain ⟨s1, h1⟩ := hcanon dinput
    obtain ⟨s2, h2⟩ := hcanon (resolve_decode_output_path dsettings fmt dbase dinput)
    unfold decode_single
    cases hp : parent_path (resolve_decode_output_path dsettings fmt dbase dinput) with
    | none =>
      by_cases hex : fs.pathExists (resolve_decode_output_path dsettings fmt dbase dinput) = true <;>
        simp [hp, h1, h2, hex, hrun, hfail]
    | some parent =>
      obtain ⟨s3, h3⟩ := hcanon parent
      by_cases hex : (mkdir_all fs parent).pathExists
          (resolve_decode_output_path dsettings fmt dbase dinput) = true <;>
        simp [hp, h1, h2, h3, hex, hrun, hfail]

/-- The `Default for DecodeSettings` values (types.rs lines 83-92). -/
def default_decode_settings : DecodeSettings :=
  ⟨[], .Png, true, false⟩

/-- An environment in which path resolution succeeds and the external
tool runs but exits non-zero with empty standard error. -/
def failing_tool_env : ProcEnv :=
  ⟨fun p => .ok (path_display p), fun _ _ => .ok ⟨false, ""⟩⟩

/-- Witness for C8: a run through that environment fails with the fixed
prefix and the (empty) captured standard error, for encode and decode. -/
theorem nonzero_exit_yields_error_witness :
    (convert_single structure_fs failing_tool_env "cjxl" keep_structure_settings
        (some ["a"]) ["a", "b", "x.png"]).1 =
      .error ("cjxl failed: " ++ (ProcessOutput.mk false "").stderr) ∧
    (decode_single structure_fs failing_tool_env "djxl" .Png default_decode_settings
        none ["j", "f.jxl"]).1 =
      .error ("djxl failed: " ++ (ProcessOutput.mk false "").stderr) :=
  nonzero_exit_yields_error structure_fs failing_tool_env "cjxl" "djxl" .Png
    keep_structure_settings default_decode_settings (some ["a"]) none
    ["a", "b", "x.png"] ["j", "f.jxl"] ⟨false, ""⟩ rfl
    (fun p => ⟨path_display p, rfl⟩) (fun _ _ => rfl)

/-- Creating a directory with `create_dir_all` leaves it — and every
ancestor it had to create — in existence. -/
lemma mem_mkdir_all_of_prefix (fs : FS) (d q : FsPath)
    (hq : q ∈ path_prefixes d) : q ∈ (mkdir_all fs d).dirs := by
  unfold mkdir_all
  by_cases h : fs.dirs.contains q = true
  · exact List.mem_append.mpr (Or.inl (by simpa using h))
  · refine List.mem_append.mpr (Or.inr (List.mem_filter.mpr ⟨hq, ?_⟩))
    simp only [Bool.not_eq_true] at h
    simp [h]
    simpa using h

/-- Whatever the environment does — path resolution succeeding or
failing, the tool launching or not, exiting zero or not — the filesystem
`convert_single` leaves behind contains every ancestor of the
destination's parent directory, because that directory is created before
anything can fail. -/
lemma convert_single_keeps_parent_dirs (fs : FS) (env : ProcEnv) (cj : String)
    (settings : ConversionSettings) (base_path : Option FsPath) (input_file : FsPath)
    (par : FsPath)
    (hpar : parent_path (resolve_output_path settings base_path input_file) = some par) :
    ∀ q ∈ path_prefixes par,
      q ∈ (convert_single fs env cj settings base_path input_file).2.dirs := by
  intro q hq
  have hone := mem_mkdir_all_of_prefix fs par q hq
  have htwo := mem_mkdir_all_of_prefix (mkdir_all fs par) par q hq
  unfold convert_single
  cases hc1 : env.canonicalize input_file with
  | error e => simpa [hpar, hc1] using hone
  | ok a =>
    by_cases hex : (mkdir_all fs par).pathExists
        (resolve_output_path settings base_path input_file) = true
    · cases hc2 : env.canonicalize (resolve_output_path settings base_path input_file) with
      | error e2 => simpa [hpar, hc1, hex, hc2] using hone
      | ok b =>
        cases hr : env.run cj (cjxl_args settings input_file a b) with
        | error e3 => simpa [hpar, hc1, hex, hc2, hr] using hone
        | ok outp =>
          by_cases hs : outp.success = true <;>
            simpa [hpar, hc1, hex, hc2, hr, hs] using hone
    · cases hc3 : env.canonicalize par with
      | error e4 => simpa [hpar, hc1, hex, hc3] using htwo
      | ok c =>
        cases hr : env.run cj (cjxl_args settings input_file a
            (c ++ "/" ++ file_name (resolve_output_path settings base_path input_file))) with
        | error e3 => simpa [hpar, hc1, hex, hc3, hr] using htwo
        | ok outp =>
          by_cases hs : outp.success = true <;>
            simpa [hpar, hc1, hex, hc3, hr, hs] using htwo

/-- The same frame fact for `decode_single`. -/
lemma decode_single_keeps_parent_dirs (fs : FS) (env : ProcEnv) (dj : String)
    (output_format : OutputFormat) (settings : DecodeSettings)
    (base_path : Option FsPath) (input_file : FsPath) (par : FsPath)
    (hpar : parent_path
      (resolve_decode_output_path settings output_format base_path input_file) = some par) :
    ∀ q ∈ path_prefixes par,
      q ∈ (decode_single fs env dj output_format settings base_path input_file).2.dirs := by
  intro q hq
  have hone := mem_mkdir_all_of_prefix fs par q hq
  have htwo := mem_mkdir_all_of_prefix (mkdir_all fs par) par q hq
  unfold decode_single
  cases hc1 : env.canonicalize input_file with
  | error e => simpa [hpar, hc1] using hone
  | ok a =>
    by_cases hex : (mkdir_all fs par).pathExists
        (resolve_decode_output_path settings output_format base_path input_file) = true
    · cases hc2 : env.canonicalize
          (resolve_decode_output_path settings output_format base_path input_file) with
      | error e2 => simpa [hpar, hc1, hex, hc2] using hone
      | ok b =>
        cases hr : env.run dj [a, b] with
        | error e3 => simpa [hpar, hc1, hex, hc2, hr] using hone
        | ok outp =>
          by_cases hs : outp.success = true <;>
            simpa [hpar, hc1, hex, hc2, hr, hs] using hone
    · cases hc3 : env.canonicalize par with
      | error e4 => simpa [hpar, hc1, hex, hc3] using htwo
      | ok c =>
        cases hr : env.run dj [a, c ++ "/" ++ file_name
            (resolve_decode_output_path settings output_format base_path input_file)] with
        | error e3 => simpa [hpar, hc1, hex, hc3, hr] using htwo
        | ok outp =>
          by_cases hs : outp.success = true <;>
            simpa [hpar, hc1, hex, hc3, hr, hs] using htwo

/-- C10: per-item failure is not atomic on the filesystem — both
`convert_single` and `decode_single` create the destination's parent
directories before resolving paths and launching the process, so however
the item then fails (input- or output-path resolution, process launch,
or a non-zero exit — any environment whose result is an error, hence an
`Error` event for the item), every directory created for the item
remains in the resulting filesystem state. -/
theorem failed_item_leaves_created_dirs (fs : FS) (env : ProcEnv) (cj dj : String)
    (fmt : OutputFormat) (esettings : ConversionSettings) (dsettings : DecodeSettings)
    (ebase dbase : Option FsPath) (einput dinput : FsPath) (err derr : String)
    (epar dpar : FsPath)
    (hep : parent_path (resolve_output_path esettings ebase einput) = some epar)
    (hdp : parent_path (resolve_decode_output_path dsettings fmt dbase dinput) = some dpar)
    (hfail : (convert_single fs env cj esettings ebase einput).1 = .error err)
    (hdfail : (decode_single fs env dj fmt dsettings dbase dinput).1 = .error derr) :
    (∀ q ∈ path_prefixes epar,
        q ∈ (convert_single fs env cj esettings ebase einput).2.dirs) ∧
      (∀ q ∈ path_prefixes dpar,
        q ∈ (decode_single fs env dj fmt dsettings dbase dinput).2.dirs) :=
  ⟨convert_single_keeps_parent_dirs fs env cj esettings ebase einput epar hep,
    decode_single_keeps_parent_dirs fs env dj fmt dsettings dbase dinput dpar hdp⟩

/-- Witness for C10 in the non-zero-exit failure mode: the tool runs and
fails on `/a/b/x.png` (encode, created parent `/out/b`) and `/j/f.jxl`
(decode, parent the root), and the created directories are present in
the final state. -/
theorem failed_item_leaves_created_dirs_witness :
    (convert_single structure_fs failing_tool_env "cjxl" keep_structure_settings
        (some ["a"]) ["a", "b", "x.png"]).1 = .error "cjxl failed: " ∧
    ["out", "b"] ∈ (convert_single structure_fs failing_tool_env "cjxl"
        keep_structure_settings (some ["a"]) ["a", "b", "x.png"]).2.dirs ∧
    ["out"] ∈ (convert_single structure_fs failing_tool_env "cjxl"
        keep_structure_settings (some ["a"]) ["a", "b", "x.png"]).2.dirs ∧
    (decode_single structure_fs failing_tool_env "djxl" .Png default_decode_settings
        none ["j", "f.jxl"]).1 = .error "djxl failed: " ∧
    ([] : FsPath) ∈ (decode_single structure_fs failing_tool_env "djxl" .Png
        default_decode_settings none ["j", "f.jxl"]).2.dirs := by
  have h := failed_item_leaves_created_dirs structure_fs failing_tool_env "cjxl" "djxl"
    .Png keep_structure_settings default_decode_settings (some ["a"]) none
    ["a", "b", "x.png"] ["j", "f.jxl"] "cjxl failed: " "djxl failed: "
    ["out", "b"] [] (by decide) (by decide) rfl rfl
  exact ⟨rfl, h.1 ["out", "b"] (by decide), h.1 ["out"] (by decide),
    rfl, h.2 [] (by decide)⟩

/-! Batch-runner lemmas: the per-item loops decompose as a terminal-free
prefix followed by exactly one terminal event. -/

/-- Under any cancellation behavior and any per-item outcomes, the encode
loop is a terminal-free prefix followed by one `Completed`/`Cancelled`. -/
lemma convert_loop_split (total : Nat) (cancel : Nat → Bool)
    (runItem : Nat → FsPath → Except String String) (files : List FsPath) :
    ∀ idx : Nat, ∃ pre e,
      convert_loop total cancel runItem idx files = pre ++ [e] ∧
        is_terminal e = true ∧ pre.countP is_terminal = 0 := by
  induction files with
  | nil => exact fun idx => ⟨[], .Completed, rfl, rfl, rfl⟩
  | cons f rest ih =>
    intro idx
    cases hc : cancel idx with
    | true => exact ⟨[], .Cancelled, by simp [convert_loop, hc], rfl, rfl⟩
    | false =>
      obtain ⟨pre, e, heq, hterm, hcount⟩ := ih (idx + 1)
      cases hr : runItem idx f with
      | ok output =>
        exact ⟨.Progress (idx + 1) total (path_display f) ::
            .Success (path_display f ++ " -> " ++ output) :: pre, e,
          by simp [convert_loop, hc, hr, heq],
          hterm, by simp [List.countP_cons, hcount, is_terminal]⟩
      | error er =>
        exact ⟨.Progress (idx + 1) total (path_display f) ::
            .Error (path_display f) er :: pre, e,
          by simp [convert_loop, hc, hr, heq],
          hterm, by simp [List.countP_cons, hcount, is_terminal]⟩

/-- Same decomposition for the decode loop. -/
lemma decode_loop_split (total : Nat) (cancel : Nat → Bool)
    (runItem : Nat → DecodeItem → Except String String) (items : List DecodeItem) :
    ∀ idx : Nat, ∃ pre e,
      decode_loop total cancel runItem idx items = pre ++ [e] ∧
        is_terminal e = true ∧ pre.countP is_terminal = 0 := by
  induction items with
  | nil => exact fun idx => ⟨[], .Completed, rfl, rfl, rfl⟩
  | cons item rest ih =>
    intro idx
    cases hc : cancel idx with
    | true => exact ⟨[], .Cancelled, by simp [decode_loop, hc], rfl, rfl⟩
    | false =>
      obtain ⟨pre, e, heq, hterm, hcount⟩ := ih (idx + 1)
      cases hr : runItem idx item with
      | ok output =>
        exact ⟨.Progress (idx + 1) total (path_display item.path) ::
            .Success (path_display item.path ++ " -> " ++ output) :: pre, e,
          by simp [decode_loop, hc, hr, heq],
          hterm, by simp [List.countP_cons, hcount, is_terminal]⟩
      | error er =>
        exact ⟨.Progress (idx + 1) total (path_display item.path) ::
            .Error (path_display item.path) er :: pre, e,
          by simp [decode_loop, hc, hr, heq],
          hterm, by simp [List.countP_cons, hcount, is_terminal]⟩

/-- With the encoder located, `convert_batch` is `Started{total}` followed
by the per-item loop (an empty work list reaches the loop on `[]`, which
is exactly `[Completed]`). -/
lemma convert_batch_eq (cj : String) (djopt : Option String) (fs : FS)
    (input_paths : List FsPath) (settings : ConversionSettings) (cancel : Nat → Bool)
    (runItem : Nat → FsPath → Except String String) :
    convert_batch ⟨some cj, djopt⟩ fs input_paths settings cancel runItem =
      .Started ((expand_paths fs input_paths settings.recursive).filter
          is_supported_image).length ::
        convert_loop ((expand_paths fs input_paths settings.recursive).filter
            is_supported_image).length cancel runItem 0
          ((expand_paths fs input_paths settings.recursive).filter is_supported_image) := by
  unfold convert_batch
  by_cases h : ((expand_paths fs input_paths settings.recursive).filter
      is_supported_image).length = 0
  · have hnil := List.length_eq_zero.mp h
    simp [h, hnil, convert_loop]
  · simp [h]

/-- With the decoder located, `decode_batch` is `Started{total}` followed
by the per-item loop. -/
lemma decode_batch_eq (cjopt : Option String) (dj : String)
    (decode_items : List DecodeItem) (settings : DecodeSettings) (cancel : Nat → Bool)
    (runItem : Nat → DecodeItem → Except String String) :
    decode_batch ⟨cjopt, some dj⟩ decode_items settings cancel runItem =
      .Started decode_items.length ::
        decode_loop decode_items.length cancel runItem 0 decode_items := by
  unfold decode_batch
  by_cases h : decode_items.length = 0
  · have hnil := List.length_eq_zero.mp h
    simp [h, hnil, decode_loop]
  · simp [h]

/-- A `Started` event is not a terminal event. -/
lemma is_terminal_started (n : Nat) : is_terminal (.Started n) = false := rfl

/-- C1 counterexample: with the required tool not located, the run emits
a single `Error` event and terminates with no `Completed`/`Cancelled` at
all, so the claim fails for that invocation. -/
theorem missing_tool_run_has_no_terminal :
    convert_batch ⟨none, none⟩ ⟨[], []⟩ [] default_conversion_settings
        (fun _ => false) (fun _ _ => .ok "") = [.Error "" "cjxl not found"] ∧
      ¬ ends_with_one_terminal [.Error "" "cjxl not found"] := by
  refine ⟨rfl, ?_⟩
  rintro ⟨pre, e, -, -, hcnt⟩
  exact absurd hcnt (by decide)

/-- C1 (amended): every run of `convert_batch`/`decode_batch` in which
the required external tool was located — over any inputs, settings,
cancellation behavior and per-item outcomes — ends with exactly one
terminal event, `Completed` or `Cancelled`. -/
theorem batch_ends_with_one_terminal (cj : String) (djopt : Option String) (fs : FS)
    (input_paths : List FsPath) (settings : ConversionSettings) (cancel : Nat → Bool)
    (runItem : Nat → FsPath → Except String String)
    (cjopt : Option String) (dj : String) (decode_items : List DecodeItem)
    (dsettings : DecodeSettings) (dcancel : Nat → Bool)
    (drunItem : Nat → DecodeItem → Except String String) :
    ends_with_one_terminal
        (convert_batch ⟨some cj, djopt⟩ fs input_paths settings cancel runItem) ∧
      ends_with_one_terminal
        (decode_batch ⟨cjopt, some dj⟩ decode_items dsettings dcancel drunItem) := by
  constructor
  · rw [convert_batch_eq]
    obtain ⟨pre, e, heq, hterm, hcount⟩ :=
      convert_loop_split
        ((expand_paths fs input_paths settings.recursive).filter is_supported_image).length
        cancel runItem
        ((expand_paths fs input_paths settings.recursive).filter is_supported_image) 0
    rw [heq]
    refine ⟨.Started ((expand_paths fs input_paths settings.recursive).filter
        is_supported_image).length :: pre, e, (List.cons_append _ _ _).symm, hterm, ?_⟩
    simp [List.countP_cons, List.countP_append, hcount, hterm, is_terminal_started]
  · rw [decode_batch_eq]
    obtain ⟨pre, e, heq, hterm, hcount⟩ :=
      decode_loop_split decode_items.length dcancel drunItem decode_items 0
    rw [heq]
    refine ⟨.Started decode_items.length :: pre, e, (List.cons_append _ _ _).symm, hterm, ?_⟩
    simp [List.countP_cons, List.countP_append, hcount, hterm, is_terminal_started]

/-- Event-classifier evaluations used below. -/
lemma is_started_started (n : Nat) : is_started (.Started n) = true := rfl

lemma is_progress_started (n : Nat) : is_progress (.Started n) = false := rfl

lemma progress_current_started (n : Nat) : progress_current (.Started n) = none := rfl

lemma progress_file_started (n : Nat) : progress_file (.Started n) = none := rfl

/-- With the cancellation flag never set, the encode loop visits every
work item: its `Progress.current` values are consecutive from the start
index, one `Progress` per item with the items' displayed paths in input
order, and it emits no `Started`. -/
lemma convert_loop_nocancel (total : Nat)
    (runItem : Nat → FsPath → Except String String) (files : List FsPath) :
    ∀ idx : Nat,
      (convert_loop total (fun _ => false) runItem idx files).filterMap progress_current =
          List.range' (idx + 1) files.length ∧
        (convert_loop total (fun _ => false) runItem idx files).countP is_progress =
          files.length ∧
        (convert_loop total (fun _ => false) runItem idx files).filterMap progress_file =
          files.map path_display ∧
        (convert_loop total (fun _ => false) runItem idx files).countP is_started = 0 := by
  induction files with
  | nil => exact fun idx => ⟨rfl, rfl, rfl, rfl⟩
  | cons f rest ih =>
    intro idx
    obtain ⟨h1, h2, h3, h4⟩ := ih (idx + 1)
    cases hr : runItem idx f with
    | ok output =>
      refine ⟨?_, ?_, ?_, ?_⟩ <;>
        simp [convert_loop, hr, h1, h2, h3, h4, List.range'_succ, List.countP_cons,
          progress_current, progress_file, is_progress, is_started]
    | error er =>
      refine ⟨?_, ?_, ?_, ?_⟩ <;>
        simp [convert_loop, hr, h1, h2, h3, h4, List.range'_succ, List.countP_cons,
          progress_current, progress_file, is_progress, is_started]

/-- Every `Progress` event the encode loop emits carries the batch total
it was started with, under any cancellation behavior and outcomes. -/
lemma convert_loop_progress_total (total : Nat) (cancel : Nat → Bool)
    (runItem : Nat → FsPath → Except String String) (files : List FsPath) :
    ∀ idx c t f, .Progress c t f ∈ convert_loop total cancel runItem idx files →
      t = total := by
  induction files with
  | nil =>
    intro idx c t f h
    simp [convert_loop] at h
  | cons g rest ih =>
    intro idx c t f h
    cases hc : cancel idx with
    | true => simp [convert_loop, hc] at h
    | false =>
      cases hr : runItem idx g with
      | ok output =>
        simp [convert_loop, hc, hr] at h
        rcases h with ⟨-, h, -⟩ | h
        · exact h
        · exact ih (idx + 1) c t f h
      | error er =>
        simp [convert_loop, hc, hr] at h
        rcases h with ⟨-, h, -⟩ | h
        · exact h
        · exact ih (idx + 1) c t f h

/-- C2: an uncancelled batch (encoder located, flag never set) announces
`Started` with the filtered work-list length as its first event and its
only `Started`; its `Progress.current` values are exactly `1..N`, one
`Progress` per work item in input-list order; and every `Progress`
carries that same total. -/
theorem uncancelled_batch_progress_sequence (cj : String) (djopt : Option String)
    (fs : FS) (input_paths : List FsPath) (settings : ConversionSettings)
    (runItem : Nat → FsPath → Except String String) :
    (convert_batch ⟨some cj, djopt⟩ fs input_paths settings (fun _ => false)
        runItem).head? =
      some (.Started ((expand_paths fs input_paths settings.recursive).filter
        is_supported_image).length) ∧
    (convert_batch ⟨some cj, djopt⟩ fs input_paths settings (fun _ => false)
        runItem).countP is_started = 1 ∧
    (convert_batch ⟨some cj, djopt⟩ fs input_paths settings (fun _ => false)
        runItem).filterMap progress_current =
      List.range' 1 ((expand_paths fs input_paths settings.recursive).filter
        is_supported_image).length ∧
    (convert_batch ⟨some cj, djopt⟩ fs input_paths settings (fun _ => false)
        runItem).countP is_progress =
      ((expand_paths fs input_paths settings.recursive).filter is_supported_image).length ∧
    (convert_batch ⟨some cj, djopt⟩ fs input_paths settings (fun _ => false)
        runItem).filterMap progress_file =
      ((expand_paths fs input_paths settings.recursive).filter is_supported_image).map
        path_display ∧
    (∀ c t f, .Progress c t f ∈ convert_batch ⟨some cj, djopt⟩ fs input_paths settings
        (fun _ => false) runItem →
      t = ((expand_paths fs input_paths settings.recursive).filter
        is_supported_image).length) := by
  rw [convert_batch_eq]
  obtain ⟨h1, h2, h3, h4⟩ :=
    convert_loop_nocancel
      ((expand_paths fs input_paths settings.recursive).filter is_supported_image).length
      runItem ((expand_paths fs input_paths settings.recursive).filter is_supported_image) 0
  refine ⟨rfl, ?_, ?_, ?_, ?_, ?_⟩
  · simp [List.countP_cons, h4, is_started_started]
  · simpa [progress_current_started] using h1
  · simp [List.countP_cons, h2, is_progress_started]
  · simpa [progress_file_started] using h3
  · intro c t f h
    rcases List.mem_cons.mp h with h | h
    · exact absurd h (by simp)
    · exact convert_loop_progress_total _ _ runItem _ 0 c t f h

/-- When the cancellation flag becomes set at the check for 0-based item
`K` (and the list is long enough to reach it), the encode loop runs
exactly the items before `K` — one `Progress` and one `Success`/`Error`
each — and then stops with `Cancelled`. -/
lemma convert_loop_cancel_at (total : Nat)
    (runItem : Nat → FsPath → Except String String) (K : Nat) (files : List FsPath) :
    ∀ idx : Nat, idx ≤ K → K < idx + files.length →
      ∃ pre, convert_loop total (fun i => decide (K ≤ i)) runItem idx files =
          pre ++ [.Cancelled] ∧
        pre.countP is_outcome = K - idx ∧ pre.countP is_progress = K - idx ∧
        pre.countP is_terminal = 0 ∧ pre.countP is_started = 0 := by
  induction files with
  | nil =>
    intro idx h1 h2
    simp only [List.length_nil] at h2
    omega
  | cons f rest ih =>
    intro idx h1 h2
    simp only [List.length_cons] at h2
    by_cases hK : K ≤ idx
    · have hidx : idx = K := by omega
      refine ⟨[], ?_, by simp [hidx], by simp [hidx], rfl, rfl⟩
      simp [convert_loop, hK]
    · have hf : decide (K ≤ idx) = false := by simp [hK]
      obtain ⟨pre, heq, ho, hp, ht, hs⟩ := ih (idx + 1) (by omega) (by omega)
      cases hr : runItem idx f with
      | ok output =>
        refine ⟨.Progress (idx + 1) total (path_display f) ::
            .Success (path_display f ++ " -> " ++ output) :: pre, ?_, ?_, ?_, ?_, ?_⟩ <;>
          simp [convert_loop, hf, hr, heq, List.countP_cons, ho, hp, ht, hs,
            is_outcome, is_progress, is_terminal, is_started] <;> omega
      | error er =>
        refine ⟨.Progress (idx + 1) total (path_display f) ::
            .Error (path_display f) er :: pre, ?_, ?_, ?_, ?_, ?_⟩ <;>
          simp [convert_loop, hf, hr, heq, List.countP_cons, ho, hp, ht, hs,
            is_outcome, is_progress, is_terminal, is_started] <;> omega

/-- C4: if the cancellation flag is set from the check for 1-based item
`k` onward (`k` within the work list), the run is `Started{N}`, then
exactly `k-1` `Progress` events and `k-1` `Success`/`Error` outcomes (the
already-processed items), then `Cancelled` — no `Progress` at or after
the cancellation point, and no further terminal or `Started` events. -/
theorem cancellation_truncates_batch (cj : String) (djopt : Option String)
    (fs : FS) (input_paths : List FsPath) (settings : ConversionSettings)
    (runItem : Nat → FsPath → Except String String) (k : Nat)
    (hk1 : 1 ≤ k)
    (hk2 : k ≤ ((expand_paths fs input_paths settings.recursive).filter
      is_supported_image).length) :
    ∃ pre,
      convert_batch ⟨some cj, djopt⟩ fs input_paths settings
          (fun i => decide (k - 1 ≤ i)) runItem =
        .Started ((expand_paths fs input_paths settings.recursive).filter
            is_supported_image).length :: pre ++ [.Cancelled] ∧
      pre.countP is_outcome = k - 1 ∧ pre.countP is_progress = k - 1 ∧
      pre.countP is_terminal = 0 ∧ pre.countP is_started = 0 := by
  obtain ⟨pre, heq, ho, hp, ht, hs⟩ :=
    convert_loop_cancel_at
      ((expand_paths fs input_paths settings.recursive).filter is_supported_image).length
      runItem (k - 1)
      ((expand_paths fs input_paths settings.recursive).filter is_supported_image) 0
      (by omega) (by omega)
  refine ⟨pre, ?_, by simpa using ho, by simpa using hp, ht, hs⟩
  rw [convert_batch_eq, heq]
  exact (List.cons_append _ _ _).symm

/-- Witness for C4: cancelling from item 2 of the sample directory's
two-image batch yields one processed item and then `Cancelled`. -/
theorem cancellation_truncates_batch_witness :
    1 ≤ 2 ∧
      2 ≤ ((expand_paths sample_dir_fs [["d"]]
        default_conversion_settings.recursive).filter is_supported_image).length ∧
      ∃ pre,
        convert_batch ⟨some "cjxl", none⟩ sample_dir_fs [["d"]]
            default_conversion_settings (fun i => decide (2 - 1 ≤ i))
            (fun _ _ => .ok "") =
          .Started ((expand_paths sample_dir_fs [["d"]]
              default_conversion_settings.recursive).filter is_supported_image).length ::
            pre ++ [.Cancelled] ∧
        pre.countP is_outcome = 2 - 1 ∧ pre.countP is_progress = 2 - 1 ∧
        pre.countP is_terminal = 0 ∧ pre.countP is_started = 0 :=
  ⟨by decide, by decide,
    cancellation_truncates_batch "cjxl" none sample_dir_fs [["d"]]
      default_conversion_settings (fun _ _ => .ok "") 2 (by decide) (by decide)⟩

end JxlConverter
